import Mathlib

/-!
# data-storage-api: the request handler of `testapp.go`

A shallow embedding of `urlMatch` and of the HTTP handler closure declared in `main`
(`src/testapp.go`), followed by theorems about them.

Go strings and `[]byte` values are byte sequences, modelled as `List UInt8`.
A Go run-time panic (index out of range) is modelled by `none`.
-/

namespace DataStorage

/-! ## Strings -/

/-- One byte of a Go `string` or `[]byte`. -/
abbrev Byte := UInt8

/-- Go `string`: an immutable sequence of bytes. -/
abbrev GoString := List Byte

/-- The bytes (UTF-8) of a string literal of the source. -/
def str (s : String) : GoString := s.toUTF8.data.toList

/-- The separator `"/"` that `urlMatch` splits on. -/
def slash : Byte := 47

/-- Go `strings.SplitN(s, sep, -1)` for a one-byte separator: `s` is cut at every
occurrence of `sep`; the result has `Count(s, sep) + 1` fragments, none containing `sep`. -/
def SplitN : GoString → Byte → List GoString
  | [], _ => [[]]
  | c :: cs, sep =>
    if c = sep then [] :: SplitN cs sep
    else
      match SplitN cs sep with
      | [] => [[c]]
      | f :: fs => (c :: f) :: fs

/-- Go `strings.HasPrefix(s, p)`, as a proposition. -/
def HasPrefix (s p : GoString) : Prop := p <+: s

instance (s p : GoString) : Decidable (HasPrefix s p) := by
  unfold HasPrefix; infer_instance

/-! ## `urlMatch` -/

/-- Source `urlMatch`: split the path on `"/"`, take fragment 2 as the repository and
fragment 3, when there are more than three fragments, as the objectID.  `fragments[2]` on
fewer than three fragments is an index-out-of-range panic: `none`. -/
def urlMatch (url : GoString) : Option (GoString × GoString) :=
  let fragments := SplitN url slash
  if h2 : 2 < fragments.length then
    let repository := fragments[2]
    let objectID := if h3 : fragments.length > 3 then fragments[3] else []
    some (repository, objectID)
  else
    none

/-! ## The storage map -/

/-- The Go map `map[string][]byte`: each key is absent (`none`) or holds a byte slice. -/
abbrev Storage := GoString → Option (List Byte)

/-- Go `make(map[string][]byte)`: the map with no key. -/
def newStorage : Storage := fun _ => none

/-- Go map indexing `storage[key]`: the stored value, or the zero value (a nil slice, no
bytes) when the key is absent. -/
def Storage.index (storage : Storage) (key : GoString) : List Byte :=
  (storage key).getD []

/-! ## `http.ResponseWriter` (the part of net/http the handler drives) -/

/-- State of the `http.ResponseWriter` of one request: whether the status line has been
committed, the status code, the header map as set by the handler, and the body bytes
written so far. -/
structure ResponseWriter where
  wroteHeader : Bool
  status : Nat
  header : List (GoString × GoString)
  body : List Byte
deriving DecidableEq

/-- The writer a handler receives: nothing committed, empty header map, empty body. -/
def newResponseWriter : ResponseWriter :=
  { wroteHeader := false, status := 0, header := [], body := [] }

/-- Go `w.WriteHeader(code)`: commits the status code; a second call is superfluous and
ignored. -/
def ResponseWriter.WriteHeader (w : ResponseWriter) (code : Nat) : ResponseWriter :=
  if w.wroteHeader then w else { w with wroteHeader := true, status := code }

/-- Go `w.Write(data)` as net/http implements it for a server response: status 200 is
committed when no status was committed yet; a write of no bytes then returns without an
error; a write of some bytes on a broken connection (`connBroken`) returns an error (the
`Bool` of the result) and sends nothing; otherwise the bytes are appended to the body. -/
def ResponseWriter.Write (w : ResponseWriter) (data : List Byte) (connBroken : Bool) :
    ResponseWriter × Bool :=
  let w1 := if w.wroteHeader then w else w.WriteHeader 200
  if data = [] then (w1, false)
  else if connBroken then (w1, true)
  else ({ w1 with body := w1.body ++ data }, false)

/-- Go `h.Set(key, value)` on the header map. -/
def setHeader (h : List (GoString × GoString)) (key value : GoString) :
    List (GoString × GoString) :=
  (key, value) :: h.filter (fun kv => kv.1 ≠ key)

/-- Go `http.Error(w, msg, code)`: sets the plain-text headers, calls `WriteHeader(code)`
and prints `msg` and a newline to `w`. -/
def httpError (w : ResponseWriter) (msg : GoString) (code : Nat) (connBroken : Bool) :
    ResponseWriter :=
  let h1 := w.header.filter (fun kv => kv.1 ≠ str "Content-Length")
  let h2 := setHeader h1 (str "Content-Type") (str "text/plain; charset=utf-8")
  let h3 := setHeader h2 (str "X-Content-Type-Options") (str "nosniff")
  let w1 := { w with header := h3 }
  let w2 := w1.WriteHeader code
  (w2.Write (msg ++ str "\n") connBroken).1

/-- What net/http does when the handler returns: a handler that committed no status gets
status 200. -/
def finishRequest (w : ResponseWriter) : ResponseWriter :=
  if w.wroteHeader then w else w.WriteHeader 200

/-- The response to a request that wrote no byte and set no header: 200 with an empty
body. -/
def emptyOK : ResponseWriter :=
  { wroteHeader := true, status := 200, header := [], body := [] }

/-! ## The handler -/

/-- The fields of `*http.Request` the handler reads, and the request body. -/
structure Request where
  Method : GoString
  Path : GoString
  Body : List Byte

/-- Everything one run of the handler leaves behind: the storage map, the response writer,
the line printed by `fmt.Println` (if reached, without its newline) and whether
`log.Printf` was called. -/
structure Outcome where
  storage : Storage
  w : ResponseWriter
  stdout : Option GoString
  logged : Bool

/-- Source closure `handler` of `main`.  `urlMatch` runs first (a panic there ends the
handler: `none`); the `switch` on the method has the single case `"GET"`, which writes
`storage[objectID]` to the client; every path that does not return early ends with the
`fmt.Println` line.  `connBroken` is the state of the connection to the client. -/
def handler (storage : Storage) (req : Request) (connBroken : Bool) : Option Outcome :=
  match urlMatch req.Path with
  | none => none
  | some (repository, objectID) =>
    let w := newResponseWriter
    let line := req.Method ++ str " repository: " ++ repository ++ str " objectID: " ++ objectID
    if req.Method = str "GET" then
      let (w1, err) := w.Write (storage.index objectID) connBroken
      if err then
        some { storage := storage,
               w := httpError w1 (str "Error sending object to client") 500 connBroken,
               stdout := none, logged := true }
      else
        some { storage := storage, w := w1, stdout := some line, logged := false }
    else
      some { storage := storage, w := w, stdout := some line, logged := false }

/-- The response the client receives for one request: the handler's writer after net/http
has finished the request.  `none` when the handler panicked (the connection is closed
without a response). -/
def serve (storage : Storage) (req : Request) (connBroken : Bool) : Option ResponseWriter :=
  (handler storage req connBroken).map (fun o => finishRequest o.w)

/-- The storage map after one request; a panicking handler leaves the map as it was. -/
def storageAfter (storage : Storage) (req : Request) (connBroken : Bool) : Storage :=
  match handler storage req connBroken with
  | none => storage
  | some o => o.storage

/-- The storage map after a sequence of requests, each with its connection state, served
one after the other. -/
def serveAll (storage : Storage) : List (Request × Bool) → Storage
  | [] => storage
  | rc :: rest => serveAll (storageAfter storage rc.1 rc.2) rest

/-- Spec wording of a malformed path: the repository segment is empty, or the path has more
segments than `/data/{repository}/{objectID}` (which splits into four fragments). -/
def malformed (url : GoString) : Prop :=
  (SplitN url slash)[2]? = some [] ∨ 4 < (SplitN url slash).length

instance (url : GoString) : Decidable (malformed url) := by
  unfold malformed; infer_instance

/-! ## Requests used as concrete inputs -/

/-- The request `PUT /data/codingtest` with the given body, as sent by `putBlob`. -/
def putReq (payload : List Byte) : Request :=
  { Method := str "PUT", Path := str "/data/codingtest", Body := payload }

/-- The request `GET /data/codingtest/{oid}`, as sent by `getBlob`. -/
def getReq (oid : GoString) : Request :=
  { Method := str "GET", Path := str "/data/codingtest/" ++ oid, Body := [] }

/-- The request `DELETE /data/codingtest/{oid}`, as sent by `deleteBlob`. -/
def deleteReq (oid : GoString) : Request :=
  { Method := str "DELETE", Path := str "/data/codingtest/" ++ oid, Body := [] }

/-! ## Lemmas on `SplitN` and `urlMatch` -/

theorem SplitN_ne_nil (s : GoString) (sep : Byte) : SplitN s sep ≠ [] := by
  induction s with
  | nil => simp [SplitN]
  | cons c cs ih =>
    unfold SplitN
    split
    · simp
    · split <;> simp

theorem SplitN_length (s : GoString) (sep : Byte) :
    (SplitN s sep).length = s.count sep + 1 := by
  induction s with
  | nil => simp [SplitN]
  | cons c cs ih =>
    unfold SplitN
    by_cases hc : c = sep
    · subst hc
      simp [ih]
    · have hcount : (c :: cs).count sep = cs.count sep := by
        rw [List.count_cons]
        simp [hc]
      rw [if_neg hc, hcount, ← ih]
      cases hs : SplitN cs sep with
      | nil => exact absurd hs (SplitN_ne_nil cs sep)
      | cons f fs => simp

theorem SplitN_single (f : GoString) (sep : Byte) (h : sep ∉ f) : SplitN f sep = [f] := by
  induction f with
  | nil => simp [SplitN]
  | cons c cs ih =>
    have hc : c ≠ sep := fun e => h (by simp [e])
    have hcs : sep ∉ cs := fun e => h (List.mem_cons_of_mem _ e)
    unfold SplitN
    rw [if_neg hc, ih hcs]

theorem SplitN_first (f rest : GoString) (sep : Byte) (h : sep ∉ f) :
    SplitN (f ++ sep :: rest) sep = f :: SplitN rest sep := by
  induction f with
  | nil => simp [SplitN]
  | cons c cs ih =>
    have hc : c ≠ sep := fun e => h (by simp [e])
    have hcs : sep ∉ cs := fun e => h (List.mem_cons_of_mem _ e)
    rw [List.cons_append]
    conv_lhs => unfold SplitN
    rw [if_neg hc, ih hcs]

theorem str_data : str "/data/" = slash :: (str "data" ++ slash :: []) := by decide

theorem slash_not_mem_data : slash ∉ str "data" := by decide

theorem SplitN_data (t : GoString) :
    SplitN (str "/data/" ++ t) slash = [] :: str "data" :: SplitN t slash := by
  rw [str_data]
  have h0 : slash ∉ ([] : GoString) := by simp
  have h := SplitN_first [] (str "data" ++ slash :: [] ++ t) slash h0
  simp only [List.nil_append] at h
  rw [List.cons_append, h, List.append_assoc, List.cons_append, List.nil_append,
    SplitN_first _ _ _ slash_not_mem_data]

theorem urlMatch_isSome_iff (url : GoString) :
    (urlMatch url).isSome = true ↔ 2 < (SplitN url slash).length := by
  unfold urlMatch
  by_cases h : 2 < (SplitN url slash).length <;> simp [h]

theorem urlMatch_data (t : GoString) :
    urlMatch (str "/data/" ++ t) =
      some ((SplitN t slash).headD [], (SplitN t slash).tail.headD []) := by
  unfold urlMatch
  rw [SplitN_data]
  cases hs : SplitN t slash with
  | nil => exact absurd hs (SplitN_ne_nil t slash)
  | cons r rest =>
    cases rest with
    | nil => simp
    | cons o more => simp

/-! ## Lemmas on the handler -/

theorem handler_storage (storage : Storage) (req : Request) (connBroken : Bool) (o : Outcome)
    (h : handler storage req connBroken = some o) : o.storage = storage := by
  unfold handler at h
  cases hu : urlMatch req.Path with
  | none => rw [hu] at h; simp at h
  | some ro =>
    obtain ⟨r, oid⟩ := ro
    rw [hu] at h
    simp only at h
    split at h
    · split at h <;> (injection h with h; rw [← h])
    · injection h with h; rw [← h]

theorem storageAfter_eq (storage : Storage) (req : Request) (connBroken : Bool) :
    storageAfter storage req connBroken = storage := by
  unfold storageAfter
  cases h : handler storage req connBroken with
  | none => rfl
  | some o => exact handler_storage storage req connBroken o h

theorem serveAll_eq (storage : Storage) (reqs : List (Request × Bool)) :
    serveAll storage reqs = storage := by
  induction reqs generalizing storage with
  | nil => rfl
  | cons rc rest ih => rw [serveAll, storageAfter_eq, ih]

theorem handler_isSome (storage : Storage) (req : Request) (connBroken : Bool)
    (h : (urlMatch req.Path).isSome = true) :
    (handler storage req connBroken).isSome = true := by
  unfold handler
  cases hu : urlMatch req.Path with
  | none => rw [hu] at h; simp at h
  | some ro =>
    obtain ⟨r, oid⟩ := ro
    simp only
    split
    · split <;> simp
    · simp

theorem serve_not_get (storage : Storage) (req : Request) (connBroken : Bool)
    (r oid : GoString) (hu : urlMatch req.Path = some (r, oid)) (hm : req.Method ≠ str "GET") :
    serve storage req connBroken = some emptyOK := by
  unfold serve handler
  rw [hu]
  simp [hm, finishRequest, newResponseWriter, ResponseWriter.WriteHeader, emptyOK]

theorem serve_get_absent (storage : Storage) (req : Request) (connBroken : Bool)
    (r oid : GoString) (hu : urlMatch req.Path = some (r, oid)) (hm : req.Method = str "GET")
    (habs : storage.index oid = []) :
    serve storage req connBroken = some emptyOK := by
  unfold serve handler
  rw [hu]
  simp [hm, habs, ResponseWriter.Write, finishRequest, newResponseWriter,
    ResponseWriter.WriteHeader, emptyOK]

theorem newStorage_index (key : GoString) : newStorage.index key = [] := rfl

theorem urlMatch_of_prefix (url : GoString) (h : HasPrefix url (str "/data/")) :
    ∃ repository objectID, urlMatch url = some (repository, objectID) := by
  obtain ⟨t, rfl⟩ := h
  exact ⟨_, _, urlMatch_data t⟩

theorem codingtest_on_route (oid : GoString) :
    HasPrefix (str "/data/codingtest/" ++ oid) (str "/data/") := by
  refine ⟨str "codingtest/" ++ oid, ?_⟩
  have e : str "/data/codingtest/" = str "/data/" ++ str "codingtest/" := by decide
  rw [e, List.append_assoc]

theorem serve_newStorage (req : Request) (connBroken : Bool)
    (h : HasPrefix req.Path (str "/data/")) :
    serve newStorage req connBroken = some emptyOK := by
  obtain ⟨r, oid, hu⟩ := urlMatch_of_prefix req.Path h
  by_cases hm : req.Method = str "GET"
  · exact serve_get_absent newStorage req connBroken r oid hu hm (newStorage_index oid)
  · exact serve_not_get newStorage req connBroken r oid hu hm

theorem serve_status_ne_400 (storage : Storage) (req : Request) (connBroken : Bool)
    (w : ResponseWriter) (h : serve storage req connBroken = some w) : w.status ≠ 400 := by
  unfold serve handler at h
  cases hu : urlMatch req.Path with
  | none => rw [hu] at h; simp at h
  | some ro =>
    obtain ⟨r, oid⟩ := ro
    rw [hu] at h
    by_cases hm : req.Method = str "GET"
    · by_cases hd : storage.index oid = []
      · simp [hm, hd, ResponseWriter.Write, newResponseWriter, ResponseWriter.WriteHeader,
          finishRequest] at h
        rw [← h]; simp
      · cases connBroken
        · simp [hm, hd, ResponseWriter.Write, newResponseWriter, ResponseWriter.WriteHeader,
            finishRequest] at h
          rw [← h]; simp
        · have hw : newResponseWriter.Write (storage.index oid) true = (emptyOK, true) := by
            simp [hd, ResponseWriter.Write, newResponseWriter, ResponseWriter.WriteHeader,
              emptyOK]
          have he : (finishRequest
              (httpError emptyOK (str "Error sending object to client") 500 true)).status
              = 200 := by decide
          simp only [hm, hw, if_true] at h
          injection h with h
          rw [← h, he]; simp
    · simp [hm, finishRequest, newResponseWriter, ResponseWriter.WriteHeader] at h
      rw [← h]; simp

theorem handler_status_ne_400 (storage : Storage) (req : Request) (connBroken : Bool)
    (o : Outcome) (h : handler storage req connBroken = some o) : o.w.status ≠ 400 := by
  unfold handler at h
  cases hu : urlMatch req.Path with
  | none => rw [hu] at h; simp at h
  | some ro =>
    obtain ⟨r, oid⟩ := ro
    rw [hu] at h
    by_cases hm : req.Method = str "GET"
    · by_cases hd : storage.index oid = []
      · simp [hm, hd, ResponseWriter.Write, newResponseWriter, ResponseWriter.WriteHeader] at h
        rw [← h]; simp
      · cases connBroken
        · simp [hm, hd, ResponseWriter.Write, newResponseWriter, ResponseWriter.WriteHeader] at h
          rw [← h]; simp
        · have hw : newResponseWriter.Write (storage.index oid) true = (emptyOK, true) := by
            simp [hd, ResponseWriter.Write, newResponseWriter, ResponseWriter.WriteHeader,
              emptyOK]
          have he : (httpError emptyOK (str "Error sending object to client") 500 true).status
              = 200 := by decide
          simp only [hm, hw, if_true] at h
          injection h with h
          rw [← h, he]; simp
    · simp [hm, newResponseWriter] at h
      rw [← h]; simp

theorem handler_congr (storage : Storage) (req req2 : Request) (connBroken : Bool)
    (hsame : req2.Method = req.Method) (hparse : urlMatch req2.Path = urlMatch req.Path) :
    handler storage req2 connBroken = handler storage req connBroken := by
  unfold handler
  rw [hparse, hsame]

theorem urlMatch_fragments (url r oid : GoString) (hu : urlMatch url = some (r, oid)) :
    (SplitN url slash)[2]? = some r ∧ oid = ((SplitN url slash)[3]?).getD [] := by
  unfold urlMatch at hu
  by_cases hl : 2 < (SplitN url slash).length
  · simp only [dif_pos hl, Option.some.injEq, Prod.mk.injEq] at hu
    obtain ⟨h2, h3⟩ := hu
    refine ⟨?_, ?_⟩
    · rw [List.getElem?_eq_getElem hl, h2]
    · rw [← h3]
      by_cases hl3 : (SplitN url slash).length > 3
      · rw [dif_pos hl3, List.getElem?_eq_getElem hl3]; rfl
      · rw [dif_neg hl3, List.getElem?_eq_none (by omega)]; rfl
  · simp [hl] at hu

theorem urlMatch_codingtest :
    urlMatch (str "/data/codingtest") = some (str "codingtest", []) := by decide

theorem put_ne_get : str "PUT" ≠ str "GET" := by decide

/-! ## Theorems for the claims -/

/-- C1, evaluated on the code: `PUT /data/codingtest` with body `something` on the initial
storage is answered with status 200 and an empty body (no OID is returned), and whatever
objectID `A` is then read with `GET /data/codingtest/A`, the answer is status 200 with an
empty body, never the payload. -/
theorem put_then_get_returns_no_payload :
    serve newStorage (putReq (str "something")) false = some emptyOK ∧
    emptyOK.body = [] ∧
    ∀ A : GoString,
      ∃ w, serve (storageAfter newStorage (putReq (str "something")) false) (getReq A)
              false = some w ∧
        w.status = 200 ∧ w.body = [] ∧ w.body ≠ str "something" := by
  refine ⟨by decide, rfl, ?_⟩
  intro A
  refine ⟨emptyOK, ?_, rfl, rfl, by decide⟩
  rw [storageAfter_eq]
  exact serve_newStorage (getReq A) false (codingtest_on_route A)

/-- C2, evaluated on the code: for every payload, storage and connection state, the
response to `PUT /data/codingtest` has status 200 (not 201), no header set by the handler
(no Content-Type) and an empty body (no JSON, no size field). -/
theorem put_responds_200_without_body (payload : List Byte) (storage : Storage)
    (connBroken : Bool) :
    ∃ w, serve storage (putReq payload) connBroken = some w ∧
      w.status = 200 ∧ w.status ≠ 201 ∧ w.header = [] ∧ w.body = [] := by
  refine ⟨emptyOK, ?_, rfl, by decide, rfl, rfl⟩
  exact serve_not_get storage (putReq payload) connBroken (str "codingtest") []
    urlMatch_codingtest put_ne_get

/-- C3, evaluated on the code: after `PUT /data/codingtest` with body `something`, for
every objectID `A` the first `DELETE /data/codingtest/A` is answered 200, the following
`GET /data/codingtest/A` is answered 200 (not 404), and the second DELETE is answered 200
(not 404). -/
theorem delete_get_delete_all_200 (A : GoString) :
    let s0 := storageAfter newStorage (putReq (str "something")) false
    let s1 := storageAfter s0 (deleteReq A) false
    let s2 := storageAfter s1 (getReq A) false
    (serve s0 (deleteReq A) false).map (fun w => w.status) = some 200 ∧
    (serve s1 (getReq A) false).map (fun w => w.status) = some 200 ∧
    (serve s2 (deleteReq A) false).map (fun w => w.status) = some 200 := by
  intro s0 s1 s2
  have h0 : s0 = newStorage := storageAfter_eq _ _ _
  have h1 : s1 = newStorage := by rw [← h0]; exact storageAfter_eq _ _ _
  have h2 : s2 = newStorage := by rw [← h1]; exact storageAfter_eq _ _ _
  rw [h0, h1, h2]
  have hd := serve_newStorage (deleteReq A) false (codingtest_on_route A)
  have hg := serve_newStorage (getReq A) false (codingtest_on_route A)
  rw [hd, hg]
  exact ⟨rfl, rfl, rfl⟩

/-- C4, evaluated on the code: on the initial storage, which has no key, for every
objectID `GET /data/codingtest/{objectID}` is answered with status 200 (not 404) and an
empty body. -/
theorem get_never_created_200 (objectID : GoString) :
    newStorage objectID = none ∧
    ∃ w, serve newStorage (getReq objectID) false = some w ∧
      w.status = 200 ∧ w.status ≠ 404 ∧ w.body = [] := by
  refine ⟨rfl, emptyOK, ?_, rfl, by decide, rfl⟩
  exact serve_newStorage (getReq objectID) false (codingtest_on_route objectID)

/-- C5, evaluated on the code: the PUT of `something` and the following PUT of `other`,
two different payloads, receive the same response, with an empty body: no OID is returned,
and any OID a client derives from the response is the same for both. -/
theorem put_responses_identical :
    str "something" ≠ str "other" ∧
    serve newStorage (putReq (str "something")) false = some emptyOK ∧
    serve (storageAfter newStorage (putReq (str "something")) false)
      (putReq (str "other")) false = some emptyOK ∧
    emptyOK.body = [] ∧
    ∀ (α : Type) (decodeOID : Option ResponseWriter → α),
      decodeOID (serve newStorage (putReq (str "something")) false) =
      decodeOID (serve (storageAfter newStorage (putReq (str "something")) false)
        (putReq (str "other")) false) := by
  have h1 : serve newStorage (putReq (str "something")) false = some emptyOK := by decide
  have h2 : serve (storageAfter newStorage (putReq (str "something")) false)
      (putReq (str "other")) false = some emptyOK := by
    rw [storageAfter_eq]; decide
  refine ⟨by decide, h1, h2, rfl, ?_⟩
  intro α decodeOID
  rw [h1, h2]

/-- C6: for all `r` and `o` without a `/`, `urlMatch` maps `/data/r` to `(r, "")` and
`/data/r/o` to `(r, o)`. -/
theorem urlMatch_documented_shapes (r o : GoString) (hr : slash ∉ r) (ho : slash ∉ o) :
    urlMatch (str "/data/" ++ r) = some (r, []) ∧
    urlMatch (str "/data/" ++ r ++ str "/" ++ o) = some (r, o) := by
  constructor
  · rw [urlMatch_data, SplitN_single r slash hr]
    rfl
  · have e : str "/" = slash :: [] := by decide
    rw [e, List.append_assoc, List.append_assoc, urlMatch_data]
    have e2 : r ++ (slash :: [] ++ o) = r ++ slash :: o := by simp
    rw [e2, SplitN_first r o slash hr, SplitN_single o slash ho]
    rfl

/-- Witness of C6 at `r = codingtest`, `o = abc`. -/
theorem urlMatch_documented_shapes_witness :
    slash ∉ str "codingtest" ∧ slash ∉ str "abc" ∧
    (urlMatch (str "/data/" ++ str "codingtest") = some (str "codingtest", []) ∧
     urlMatch (str "/data/" ++ str "codingtest" ++ str "/" ++ str "abc")
       = some (str "codingtest", str "abc")) :=
  ⟨by decide, by decide,
    urlMatch_documented_shapes (str "codingtest") (str "abc") (by decide) (by decide)⟩

/-- C7 refuted: `GET /data/` (empty repository) and `GET /data/r/o/x` (one segment too
many) are malformed paths, and both are answered with status 200, not 400. -/
theorem malformed_path_answered_200 :
    malformed (str "/data/") ∧ malformed (str "/data/r/o/x") ∧
    (serve newStorage { Method := str "GET", Path := str "/data/", Body := [] } false).map
      (fun w => w.status) = some 200 ∧
    (serve newStorage { Method := str "GET", Path := str "/data/r/o/x", Body := [] } false).map
      (fun w => w.status) = some 200 := by
  decide

/-- C7 amended: whenever the handler is run on a request whose path begins with `/data/`
and is malformed (empty repository segment, or more segments than
`/data/{repository}/{objectID}`), it raises no client error.  `urlMatch` parses the path
anyway: the repository is fragment 2 of the split, the objectID is fragment 3 (empty when
there is none), and every further fragment is ignored.  The handler returns without a
panic, the status it commits is not 400, and its whole outcome is the one it produces for
any other request with the same method and the same parsed repository and objectID, so
the malformed path is handled like a well-formed one and not screened off. -/
theorem malformed_path_not_rejected (storage : Storage) (req req2 : Request)
    (connBroken : Bool)
    (hp : HasPrefix req.Path (str "/data/")) (_hm : malformed req.Path)
    (hsame : req2.Method = req.Method) (hparse : urlMatch req2.Path = urlMatch req.Path) :
    ∃ repository objectID o,
      (SplitN req.Path slash)[2]? = some repository ∧
      objectID = ((SplitN req.Path slash)[3]?).getD [] ∧
      urlMatch req.Path = some (repository, objectID) ∧
      handler storage req connBroken = some o ∧
      o.w.status ≠ 400 ∧ (finishRequest o.w).status ≠ 400 ∧
      handler storage req2 connBroken = some o := by
  obtain ⟨r, oid, hu⟩ := urlMatch_of_prefix req.Path hp
  have hh := handler_isSome storage req connBroken (by rw [hu]; rfl)
  obtain ⟨o, ho⟩ := Option.isSome_iff_exists.mp hh
  have hfr := urlMatch_fragments req.Path r oid hu
  have hs : serve storage req connBroken = some (finishRequest o.w) := by
    unfold serve; rw [ho]; rfl
  refine ⟨r, oid, o, hfr.1, hfr.2, hu, ho,
    handler_status_ne_400 storage req connBroken o ho,
    serve_status_ne_400 storage req connBroken _ hs, ?_⟩
  rw [handler_congr storage req req2 connBroken hsame hparse, ho]

/-- Witness of the amended C7: `GET /data/r/o/x` (one segment too many) is handled exactly
like the well-formed `GET /data/r/o`. -/
theorem malformed_path_not_rejected_witness :
    HasPrefix (str "/data/r/o/x") (str "/data/") ∧ malformed (str "/data/r/o/x") ∧
    urlMatch (str "/data/r/o") = urlMatch (str "/data/r/o/x") ∧
    ¬ malformed (str "/data/r/o") ∧
    (∃ repository objectID o,
      (SplitN (str "/data/r/o/x") slash)[2]? = some repository ∧
      objectID = ((SplitN (str "/data/r/o/x") slash)[3]?).getD [] ∧
      urlMatch (str "/data/r/o/x") = some (repository, objectID) ∧
      handler newStorage { Method := str "GET", Path := str "/data/r/o/x", Body := [] } false
        = some o ∧
      o.w.status ≠ 400 ∧ (finishRequest o.w).status ≠ 400 ∧
      handler newStorage { Method := str "GET", Path := str "/data/r/o", Body := [] } false
        = some o) :=
  ⟨by decide, by decide, by decide, by decide,
    malformed_path_not_rejected newStorage
      { Method := str "GET", Path := str "/data/r/o/x", Body := [] }
      { Method := str "GET", Path := str "/data/r/o", Body := [] } false
      (by decide) (by decide) rfl (by decide)⟩

/-- C8 refuted: on the empty path, on `data` and on `/data` the split has fewer than three
fragments and `urlMatch` panics at `fragments[2]`. -/
theorem urlMatch_panics_on_short_paths :
    urlMatch (str "") = none ∧ urlMatch (str "data") = none ∧ urlMatch (str "/data") = none := by
  decide

/-- C8 amended: `urlMatch` returns a result without crashing exactly on the paths that
contain at least two `/` characters; on every other path, the empty string included,
`fragments[2]` is out of bounds. -/
theorem urlMatch_returns_iff_two_slashes (url : GoString) :
    (urlMatch url).isSome = true ↔ 2 ≤ url.count slash := by
  rw [urlMatch_isSome_iff, SplitN_length]
  omega

/-- C9: for every path that begins with `/data/`, the split on `/` has at least three
fragments, so `fragments[2]` and, when there are more than three fragments, `fragments[3]`
exist, and `urlMatch` returns without a panic. -/
theorem urlMatch_in_bounds_on_route (url : GoString) (h : HasPrefix url (str "/data/")) :
    3 ≤ (SplitN url slash).length ∧
    (SplitN url slash)[2]?.isSome = true ∧
    (3 < (SplitN url slash).length → (SplitN url slash)[3]?.isSome = true) ∧
    (urlMatch url).isSome = true := by
  obtain ⟨r, oid, hu⟩ := urlMatch_of_prefix url h
  have hs : (urlMatch url).isSome = true := by rw [hu]; rfl
  have hl : 2 < (SplitN url slash).length := (urlMatch_isSome_iff url).mp hs
  refine ⟨hl, ?_, ?_, hs⟩
  · rw [List.getElem?_eq_getElem hl]; rfl
  · intro h3
    rw [List.getElem?_eq_getElem h3]; rfl

/-- Witness of C9 at the path `/data/codingtest/abc`. -/
theorem urlMatch_in_bounds_on_route_witness :
    HasPrefix (str "/data/codingtest/abc") (str "/data/") ∧
    (3 ≤ (SplitN (str "/data/codingtest/abc") slash).length ∧
     (SplitN (str "/data/codingtest/abc") slash)[2]?.isSome = true ∧
     (3 < (SplitN (str "/data/codingtest/abc") slash).length →
       (SplitN (str "/data/codingtest/abc") slash)[3]?.isSome = true) ∧
     (urlMatch (str "/data/codingtest/abc")).isSome = true) :=
  ⟨by decide, urlMatch_in_bounds_on_route (str "/data/codingtest/abc") (by decide)⟩

/-- C10: the storage map starts with no key; for every request of a sequence whose paths
begin with `/data/` (any method, any body, any connection state) the handler returns and
leaves the storage map it was given unchanged; so after the whole sequence the storage
map has no key. -/
theorem storage_always_empty (reqs : List (Request × Bool))
    (h : ∀ rc ∈ reqs, HasPrefix rc.1.Path (str "/data/")) :
    (∀ key, newStorage key = none) ∧
    (∀ rc ∈ reqs, ∀ storage : Storage,
      ∃ o, handler storage rc.1 rc.2 = some o ∧ o.storage = storage) ∧
    (∀ key, serveAll newStorage reqs key = none) := by
  refine ⟨fun _ => rfl, ?_, ?_⟩
  · intro rc hrc storage
    obtain ⟨r, oid, hu⟩ := urlMatch_of_prefix rc.1.Path (h rc hrc)
    have hs : (handler storage rc.1 rc.2).isSome = true :=
      handler_isSome storage rc.1 rc.2 (by rw [hu]; rfl)
    obtain ⟨o, ho⟩ := Option.isSome_iff_exists.mp hs
    exact ⟨o, ho, handler_storage storage rc.1 rc.2 o ho⟩
  · intro key
    rw [serveAll_eq]
    rfl

/-- Witness of C10 at the sequence PUT `something`, GET `abc`, DELETE `abc`. -/
theorem storage_always_empty_witness :
    (∀ rc ∈ [(putReq (str "something"), false), (getReq (str "abc"), false),
        (deleteReq (str "abc"), true)], HasPrefix rc.1.Path (str "/data/")) ∧
    ((∀ key, newStorage key = none) ∧
     (∀ rc ∈ [(putReq (str "something"), false), (getReq (str "abc"), false),
        (deleteReq (str "abc"), true)], ∀ storage : Storage,
       ∃ o, handler storage rc.1 rc.2 = some o ∧ o.storage = storage) ∧
     (∀ key, serveAll newStorage [(putReq (str "something"), false),
        (getReq (str "abc"), false), (deleteReq (str "abc"), true)] key = none)) :=
  ⟨by decide,
    storage_always_empty [(putReq (str "something"), false), (getReq (str "abc"), false),
      (deleteReq (str "abc"), true)] (by decide)⟩

end DataStorage
